import Mathlib

/-!
Verification of the device-monitor-card core pipeline.

This file gives a shallow embedding, in Lean 4, of the entity
classification / state-evaluation / device-aggregation pipeline of the
device-monitor-card repository (the `ENTITY_TYPES` strategy table, the
`registryHelpers` lookups, the `collectDevices` aggregator, and the
`_groupDevices` / `_sortDevices` / `_applySorting` grouping-and-sorting
transform), together with theorems settling the frozen claims about it.

Modelling conventions:
* JavaScript strings are Lean `String`s; the JavaScript string operations
  `includes`, `startsWith`, `endsWith` and first-occurrence `replace` are
  re-implemented over the underlying character lists so that all of them
  evaluate by kernel reduction.
* JavaScript objects used as keyed maps (`hass.states`, `hass.entities`,
  the `devices` accumulator, the `grouped` buckets) are association lists
  that preserve key insertion order, matching the JavaScript
  insertion-order iteration of string-keyed objects.
* JavaScript numbers produced by `parseFloat` are modelled as rationals
  (`Rat`), built with `mkRat`; `parseFloat` itself is modelled as a
  decimal-prefix parser (sign, digits, optional fraction; exponent
  forms are not modelled, no claim exercises it).
* Falsy-string defaulting (`s || dflt`) is modelled by `jsOr` /
  `strTruthy`, which treat the empty string like JavaScript treats it.
* `Array.prototype.sort` (spec-mandated stable) is modelled by the stable
  `List.insertionSort`; `localeCompare` and the default string sort are
  modelled as code-point lexicographic order; `new Date(a) - new Date(b)`
  on ISO-8601 timestamps is modelled as lexicographic string comparison,
  which agrees with chronological order for such timestamps.
* `console.log` debugging (the `debug` / `debugTag` options) has no
  observable effect on the result and is omitted from the model.
* The strategy table is a plain JavaScript object, so the bracket lookup
  `ENTITY_TYPES[entityType]` can reach `Object.prototype`;
  `ENTITY_TYPES_lookup` / `collectDevicesJS` model that full lookup,
  including the `TypeError` thrown when an inherited truthy value passes
  the unknown-type guard.
-/

/-! ## String primitives (JavaScript semantics, kernel-reducible) -/

/-- Lexicographic comparison of character lists by code point,
modelling the JavaScript default string ordering and the (locale-free
reading of) `localeCompare`. -/
def charListLe : List Char → List Char → Bool
  | [], _ => true
  | _ :: _, [] => false
  | a :: as, b :: bs =>
    if a.toNat < b.toNat then true
    else if b.toNat < a.toNat then false
    else charListLe as bs

/-- Boolean string order used to model JavaScript string comparison. -/
def strLeB (a b : String) : Bool := charListLe a.data b.data

/-- Propositional form of `strLeB`. -/
def strLe (a b : String) : Prop := strLeB a b = true

instance : DecidableRel strLe := fun a b => by unfold strLe; infer_instance

/-- Model of JavaScript `String.prototype.startsWith`. -/
def strStartsWith (s p : String) : Bool := p.data.isPrefixOf s.data

/-- Model of JavaScript `String.prototype.endsWith`. -/
def strEndsWith (s p : String) : Bool := p.data.isSuffixOf s.data

/-- Substring occurrence over character lists. -/
def listInfix (pat : List Char) : List Char → Bool
  | [] => pat.isEmpty
  | c :: rest => pat.isPrefixOf (c :: rest) || listInfix pat rest

/-- Model of JavaScript `String.prototype.includes`. -/
def strContains (s p : String) : Bool := listInfix p.data s.data

/-- Replace the first occurrence of `pat` (JavaScript `String.prototype.replace`
with a string pattern replaces only the first occurrence). -/
def replaceFirstList (pat rep : List Char) : List Char → List Char
  | [] => []
  | c :: rest =>
    if pat.isPrefixOf (c :: rest) then rep ++ (c :: rest).drop pat.length
    else c :: replaceFirstList pat rep rest

/-- Model of JavaScript first-occurrence `replace` on strings. -/
def strReplaceFirst (s pat rep : String) : String :=
  String.mk (replaceFirstList pat.data rep.data s.data)

/-- Boolean membership of a string in a list of strings. -/
def strMem (s : String) : List String → Bool
  | [] => false
  | x :: xs => if x = s then true else strMem s xs

/-- JavaScript `o || dflt` on an optional string: `null`/`undefined` and the
empty string are falsy. -/
def jsOr (o : Option String) (dflt : String) : String :=
  match o with
  | some s => if s = "" then dflt else s
  | none => dflt

/-- JavaScript truthiness filter on an optional string (used to model
`x || null` and `if (x)` guards): the empty string collapses to `none`. -/
def strTruthy (o : Option String) : Option String :=
  match o with
  | some s => if s = "" then none else some s
  | none => none

/-- JavaScript `x || dflt` on an optional number: `null`/`undefined` and `0`
are falsy. -/
def jsOrRat (o : Option Rat) (dflt : Rat) : Rat :=
  match o with
  | some x => if x = 0 then dflt else x
  | none => dflt

/-- Digit-list to natural number. -/
def digitsToNat (cs : List Char) : Nat :=
  cs.foldl (fun a c => a * 10 + (c.toNat - 48)) 0

/-- Model of JavaScript `parseFloat`: skip leading whitespace, optional sign,
then the longest decimal prefix (digits, optional point, digits); `none`
models `NaN`. -/
def parseFloatQ (s : String) : Option Rat :=
  let cs0 := s.data.dropWhile Char.isWhitespace
  let neg : Bool := match cs0 with | c :: _ => c = '-' | [] => false
  let cs1 := match cs0 with
    | c :: rest => if c = '-' ∨ c = '+' then rest else cs0
    | [] => []
  let intPart := cs1.takeWhile Char.isDigit
  let rest1 := cs1.dropWhile Char.isDigit
  let fracPart := match rest1 with
    | c :: r => if c = '.' then r.takeWhile Char.isDigit else []
    | [] => []
  if intPart.isEmpty && fracPart.isEmpty then none
  else
    let mag : Int := (digitsToNat intPart) * 10 ^ fracPart.length + digitsToNat fracPart
    some (mkRat (if neg then -mag else mag) (10 ^ fracPart.length))

/-- JavaScript number-to-string coercion, used only to build display strings
(no claim depends on the exact rendering). -/
def jsNumberToString (q : Rat) : String := toString q

/-! ## Order facts about `strLe` (needed for the sorted-key reasoning) -/

theorem charListLe_total : ∀ as bs : List Char,
    charListLe as bs = true ∨ charListLe bs as = true := by
  intro as
  induction as with
  | nil => intro bs; left; rfl
  | cons a as ih =>
    intro bs
    cases bs with
    | nil => right; rfl
    | cons b bs =>
      by_cases h1 : a.toNat < b.toNat
      · left; simp [charListLe, h1]
      · by_cases h2 : b.toNat < a.toNat
        · right; simp [charListLe, h2]
        · rcases ih bs with h | h
          · left; simp [charListLe, h1, h2, h]
          · right; simp [charListLe, h1, h2, h]

theorem charListLe_trans : ∀ as bs cs : List Char,
    charListLe as bs = true → charListLe bs cs = true → charListLe as cs = true := by
  intro as
  induction as with
  | nil => intro bs cs _ _; rfl
  | cons a as ih =>
    intro bs cs hab hbc
    cases bs with
    | nil => simp [charListLe] at hab
    | cons b bs =>
      cases cs with
      | nil => simp [charListLe] at hbc
      | cons c cs =>
        simp only [charListLe] at hab hbc ⊢
        by_cases hab1 : a.toNat < b.toNat
        · by_cases hbc1 : b.toNat < c.toNat
          · simp [show a.toNat < c.toNat by omega]
          · simp only [hbc1, if_false] at hbc
            by_cases hbc2 : c.toNat < b.toNat
            · simp [hbc2] at hbc
            · simp [show a.toNat < c.toNat by omega]
        · simp only [hab1, if_false] at hab
          by_cases hab2 : b.toNat < a.toNat
          · simp [hab2] at hab
          · simp only [hab2, if_false] at hab
            by_cases hbc1 : b.toNat < c.toNat
            · simp [show a.toNat < c.toNat by omega]
            · simp only [hbc1, if_false] at hbc
              by_cases hbc2 : c.toNat < b.toNat
              · simp [hbc2] at hbc
              · simp only [hbc2, if_false] at hbc
                have h1 : ¬ a.toNat < c.toNat := by omega
                have h2 : ¬ c.toNat < a.toNat := by omega
                simp [h1, h2, ih bs cs hab hbc]

theorem char_toNat_inj {a b : Char} (h : a.toNat = b.toNat) : a = b :=
  Char.ext (UInt32.toNat.inj h)

theorem charListLe_antisymm : ∀ as bs : List Char,
    charListLe as bs = true → charListLe bs as = true → as = bs := by
  intro as
  induction as with
  | nil =>
    intro bs _ hba
    cases bs with
    | nil => rfl
    | cons b bs => simp [charListLe] at hba
  | cons a as ih =>
    intro bs hab hba
    cases bs with
    | nil => simp [charListLe] at hab
    | cons b bs =>
      simp only [charListLe] at hab hba
      by_cases h1 : a.toNat < b.toNat
      · have h2 : ¬ b.toNat < a.toNat := by omega
        simp [h1, h2] at hba
      · by_cases h2 : b.toNat < a.toNat
        · simp [h1, h2] at hab
        · simp only [h1, h2, if_false] at hab hba
          have heq : a = b := char_toNat_inj (by omega)
          rw [heq, ih bs hab hba]

theorem string_data_inj {a b : String} (h : a.data = b.data) : a = b := by
  cases a; cases b; simp_all

instance : IsTotal String strLe :=
  ⟨fun a b => charListLe_total a.data b.data⟩

instance : IsTrans String strLe :=
  ⟨fun a b c hab hbc => charListLe_trans a.data b.data c.data hab hbc⟩

instance : IsAntisymm String strLe :=
  ⟨fun a b hab hba => string_data_inj (charListLe_antisymm a.data b.data hab hba)⟩

/-! ## Data model (host snapshot, registries, config) -/

/-- Entity attributes used by the core (`device_class`, `friendly_name`);
a missing attribute is `none`. -/
structure Attributes where
  device_class : Option String := none
  friendly_name : Option String := none
  deriving Repr, DecidableEq

/-- One entry of the entity-state snapshot: `{state, attributes, last_changed}`. -/
structure Entity where
  state : String
  attributes : Attributes := {}
  last_changed : String := ""
  deriving Repr, DecidableEq

/-- One entry of the entity registry (`hass.entities[id]`). -/
structure EntityReg where
  device_id : Option String := none
  hidden : Bool := false
  area_id : Option String := none
  deriving Repr, DecidableEq

/-- One entry of the device registry (`hass.devices[id]`). -/
structure DeviceReg where
  name : Option String := none
  name_by_user : Option String := none
  area_id : Option String := none
  deriving Repr, DecidableEq

/-- One entry of the area registry (`hass.areas[id]`). -/
structure AreaReg where
  name : Option String := none
  floor_id : Option String := none
  deriving Repr, DecidableEq

/-- One entry of the floor registry (`hass.floors[id]`). -/
structure FloorReg where
  name : Option String := none
  deriving Repr, DecidableEq

/-- Association-list lookup over a string-keyed JavaScript object. -/
def alookup {α : Type} : List (String × α) → String → Option α
  | [], _ => none
  | (k1, v) :: rest, k => if k1 = k then some v else alookup rest k

/-- The host state object: entity snapshot plus registries, all modelled as
insertion-ordered association lists, and the host display formatter
`hass.formatEntityState` as an uninterpreted function. -/
structure Hass where
  states : List (String × Entity)
  entities : List (String × EntityReg) := []
  devices : List (String × DeviceReg) := []
  areas : List (String × AreaReg) := []
  floors : List (String × FloorReg) := []
  formatEntityState : Entity → String := fun _ => ""

/-- The card/badge configuration surface consumed by the core. -/
structure Config where
  entity_type : Option String := none
  battery_threshold : Option Rat := none
  group_by : Option String := none
  sort_by : Option String := none
  name_source : Option String := none

/-- `collectDevices` options; `debug`/`debugTag` only drive `console.log`
and are omitted as observationally irrelevant. -/
structure Options where
  includeArea : Bool := false

/-! ## registryHelpers -/

namespace registryHelpers

/-- `getAreaId(hass, deviceId)`: `device?.area_id || null`. -/
def getAreaId (hass : Hass) (deviceId : String) : Option String :=
  match alookup hass.devices deviceId with
  | none => none
  | some device => strTruthy device.area_id

/-- `getAreaName(hass, areaId)`: `area?.name || null`. -/
def getAreaName (hass : Hass) (areaId : String) : Option String :=
  match alookup hass.areas areaId with
  | none => none
  | some area => strTruthy area.name

/-- `getFloorId(hass, areaId)`: `area?.floor_id || null`. -/
def getFloorId (hass : Hass) (areaId : String) : Option String :=
  match alookup hass.areas areaId with
  | none => none
  | some area => strTruthy area.floor_id

/-- `getFloorName(hass, floorId)`: `floor?.name || null`. -/
def getFloorName (hass : Hass) (floorId : String) : Option String :=
  match alookup hass.floors floorId with
  | none => none
  | some floor => strTruthy floor.name

/-- `isEntityHidden(hass, entityId)`: `entityRegistry?.hidden === true`. -/
def isEntityHidden (hass : Hass) (entityId : String) : Bool :=
  match alookup hass.entities entityId with
  | some reg => reg.hidden
  | none => false

/-- `isGroupEntity(entityId)`. -/
def isGroupEntity (entityId : String) : Bool :=
  strStartsWith entityId "light." || strStartsWith entityId "contact." ||
    strStartsWith entityId "sensor."

/-- `getDeviceId(hass, entityId)`: `entity?.device_id || null`. -/
def getDeviceId (hass : Hass) (entityId : String) : Option String :=
  match alookup hass.entities entityId with
  | none => none
  | some reg => strTruthy reg.device_id

/-- `getDeviceName(hass, deviceId)`: `null` when the device is not registered,
else `device.name_by_user || device.name || deviceId`. -/
def getDeviceName (hass : Hass) (deviceId : String) : Option String :=
  match alookup hass.devices deviceId with
  | none => none
  | some device => some (jsOr device.name_by_user (jsOr device.name deviceId))

end registryHelpers

/-! ## StateInfo and the ENTITY_TYPES strategy table -/

/-- A JavaScript value stored in `StateInfo.value` (string or number). -/
inductive JSValue where
  | str (s : String)
  | num (q : Rat)
  deriving Repr, DecidableEq

/-- The result of `strategy.evaluateState`, plus the `isUnavailable` tag that
`collectDevices` spreads onto it. -/
structure StateInfo where
  value : JSValue
  displayValue : String
  isAlert : Bool
  numericValue : Option Rat
  isUnavailable : Bool := false
  deriving Repr, DecidableEq

/-- The part of an entity-type strategy the aggregation core consumes.
`evaluateState` receives the entity id separately, mirroring the source
call `{ ...entity, entity_id: entityId }`. -/
structure Strategy where
  detect : String → Attributes → Bool
  evaluateState : String → Entity → Config → Hass → StateInfo

/-- `ENTITY_TYPES.battery.detect`. -/
def batteryDetect (entityId : String) (attributes : Attributes) : Bool :=
  let excludedSuffixes := ["_state", "_charging", "_charger", "_power", "_health"]
  let isExcludedEntity := excludedSuffixes.any fun sfx => strEndsWith entityId sfx
  if isExcludedEntity then false
  else
    decide (attributes.device_class = some "battery") ||
      (strContains entityId "battery" &&
        (strStartsWith entityId "sensor." || strStartsWith entityId "binary_sensor.") &&
        !(decide (attributes.device_class = some "power")) &&
        !(decide (attributes.device_class = some "energy")))

/-- `ENTITY_TYPES.battery.evaluateState`. -/
def batteryEvaluateState (entityId : String) (entity : Entity) (config : Config)
    (hass : Hass) : StateInfo :=
  let threshold := jsOrRat config.battery_threshold 20
  if strContains entityId "_battery_low" && strStartsWith entityId "binary_sensor." then
    let displayValue := match alookup hass.states entityId with
      | some stateObj => hass.formatEntityState stateObj
      | none => if entity.state = "on" then "Low" else "OK"
    { value := JSValue.str (if entity.state = "on" then "low" else "ok")
      displayValue := displayValue
      isAlert := decide (entity.state = "on")
      numericValue := none }
  else
    match parseFloatQ entity.state with
    | some batteryLevel =>
      { value := JSValue.num batteryLevel
        displayValue := jsNumberToString batteryLevel ++ "%"
        isAlert := decide (batteryLevel < threshold)
        numericValue := some batteryLevel }
    | none =>
      { value := JSValue.str entity.state
        displayValue := entity.state
        isAlert := decide (entity.state = "low") || decide (entity.state = "Low")
        numericValue := none }

/-- `ENTITY_TYPES.contact.detect`. -/
def contactDetect (entityId : String) (attributes : Attributes) : Bool :=
  let deviceClass := attributes.device_class
  let isContactSensor := strStartsWith entityId "binary_sensor." &&
    (decide (deviceClass = some "door") || decide (deviceClass = some "window") ||
      decide (deviceClass = some "garage_door") || decide (deviceClass = some "lock") ||
      decide (deviceClass = some "opening"))
  let isLock := strStartsWith entityId "lock."
  isContactSensor || isLock

/-- The open-state set that `ENTITY_TYPES.contact.evaluateState` uses for locks. -/
def openStates : List String := ["on", "open", "opening", "unlocked", "unlocking", "jammed"]

/-- `ENTITY_TYPES.contact.evaluateState`. -/
def contactEvaluateState (entityId : String) (entity : Entity) (config : Config)
    (hass : Hass) : StateInfo :=
  let isLock := strStartsWith entityId "lock."
  let isOpen := if isLock then strMem entity.state openStates
    else decide (entity.state = "on")
  let defaultDisplay := if isLock then (if isOpen then "Unlocked" else "Locked")
    else (if isOpen then "Open" else "Closed")
  let displayValue := match alookup hass.states entityId with
    | some stateObj => hass.formatEntityState stateObj
    | none => defaultDisplay
  { value := JSValue.str entity.state
    displayValue := displayValue
    isAlert := isOpen
    numericValue := none }

/-- `ENTITY_TYPES.light.detect`. -/
def lightDetect (entityId : String) (_attributes : Attributes) : Bool :=
  strStartsWith entityId "light."

/-- `ENTITY_TYPES.light.evaluateState`. -/
def lightEvaluateState (entityId : String) (entity : Entity) (config : Config)
    (hass : Hass) : StateInfo :=
  let isOn := decide (entity.state = "on")
  let displayValue := match alookup hass.states entityId with
    | some stateObj => hass.formatEntityState stateObj
    | none => if isOn then "On" else "Off"
  { value := JSValue.str entity.state
    displayValue := displayValue
    isAlert := isOn
    numericValue := none }

/-- The own properties of the `ENTITY_TYPES` strategy table, as a closed
lookup from the `entity_type` key to the strategy record. The JavaScript
bracket lookup on the table also reaches `Object.prototype`; that full
lookup, with its truthy inherited values, is modelled by
`ENTITY_TYPES_lookup` further below. -/
def ENTITY_TYPES (entityType : String) : Option Strategy :=
  if entityType = "battery" then some ⟨batteryDetect, batteryEvaluateState⟩
  else if entityType = "contact" then some ⟨contactDetect, contactEvaluateState⟩
  else if entityType = "light" then some ⟨lightDetect, lightEvaluateState⟩
  else none

/-! ## DeviceAggregator: collectDevices -/

/-- One aggregated device row (`devices[storageKey]` in the source). The
`areaId`/`areaName` fields are only assigned when `includeArea` is set. -/
structure DeviceRecord where
  deviceId : String
  deviceName : String
  entityName : String
  entityId : String
  stateInfo : StateInfo
  lastChanged : String
  attributes : Attributes
  areaId : Option String := none
  areaName : Option String := none
  deriving Repr, DecidableEq

/-- In-place update of a string-keyed object: replace the value at an
existing key (keeping its position), or append a new key at the end —
JavaScript `devices[storageKey] = record`. -/
def upsert {α : Type} : List (String × α) → String → α → List (String × α)
  | [], k, v => [(k, v)]
  | (k1, v1) :: rest, k, v =>
    if k1 = k then (k1, v) :: rest else (k1, v1) :: upsert rest k v

/-- Resolve an entity to a logical device: a registered device with a
resolvable (truthy) name, or the entity itself when it is a synthetic group
entity; `none` means the entity is skipped. Returns
`(deviceId, deviceName, areaId, areaName)`. -/
def resolveDevice (hass : Hass) (includeArea : Bool) (entityId : String)
    (attributes : Attributes) : Option (String × String × Option String × Option String) :=
  match registryHelpers.getDeviceId hass entityId with
  | some deviceId =>
    match strTruthy (registryHelpers.getDeviceName hass deviceId) with
    | none => none
    | some deviceName =>
      if includeArea then
        let areaId := registryHelpers.getAreaId hass deviceId
        let areaName := match areaId with
          | some a => registryHelpers.getAreaName hass a
          | none => none
        some (deviceId, deviceName, areaId, areaName)
      else some (deviceId, deviceName, none, none)
  | none =>
    if registryHelpers.isGroupEntity entityId then
      let deviceName := jsOr attributes.friendly_name entityId
      if includeArea then
        match alookup hass.entities entityId with
        | some reg =>
          match strTruthy reg.area_id with
          | some a => some (entityId, deviceName, some a, registryHelpers.getAreaName hass a)
          | none => some (entityId, deviceName, none, none)
        | none => some (entityId, deviceName, none, none)
      else some (entityId, deviceName, none, none)
    else none

/-- The device record stored for one accepted entity. -/
def mkDeviceRecord (includeArea : Bool) (entityId : String) (entity : Entity)
    (deviceId deviceName : String) (areaId areaName : Option String)
    (stateInfo : StateInfo) : DeviceRecord :=
  { deviceId := deviceId
    deviceName := deviceName
    entityName := jsOr entity.attributes.friendly_name entityId
    entityId := entityId
    stateInfo := stateInfo
    lastChanged := entity.last_changed
    attributes := entity.attributes
    areaId := if includeArea then areaId else none
    areaName := if includeArea then areaName else none }

/-- The `StateInfo` actually stored for an entity:
`{ ...strategy.evaluateState(...), isUnavailable }`. -/
def evaluatedStateInfo (strategy : Strategy) (entityId : String) (entity : Entity)
    (config : Config) (hass : Hass) : StateInfo :=
  { strategy.evaluateState entityId entity config hass with
    isUnavailable := decide (entity.state = "unavailable") }

/-- The body of the `collectDevices` per-entity loop: filters (detection,
registry-hidden, battery exclusion set), device resolution, state
evaluation, and the keyed first-wins / battery-numeric-override update. -/
def processEntity (hass : Hass) (config : Config) (strategy : Strategy)
    (entityType : String) (includeArea : Bool) (exclusionSet : List String)
    (devices : List (String × DeviceRecord)) (entityId : String) (entity : Entity) :
    List (String × DeviceRecord) :=
  if !(strategy.detect entityId entity.attributes) then devices
  else if registryHelpers.isEntityHidden hass entityId then devices
  else if decide (entityType = "battery") && strMem entityId exclusionSet then devices
  else
    match resolveDevice hass includeArea entityId entity.attributes with
    | none => devices
    | some (deviceId, deviceName, areaId, areaName) =>
      let stateInfo := evaluatedStateInfo strategy entityId entity config hass
      let storageKey := if entityType = "battery" then deviceId else entityId
      let shouldUpdate := match alookup devices storageKey with
        | none => true
        | some existingDevice =>
          decide (entityType = "battery") && stateInfo.numericValue.isSome &&
            existingDevice.stateInfo.numericValue.isNone
      if shouldUpdate then
        upsert devices storageKey
          (mkDeviceRecord includeArea entityId entity deviceId deviceName areaId areaName stateInfo)
      else devices

/-- The result tuple of `collectDevices`. -/
structure CollectResult where
  alertDevices : List DeviceRecord
  normalDevices : List DeviceRecord
  unavailableDevices : List DeviceRecord
  allDevices : List DeviceRecord
  totalDevices : Nat
  deriving Repr, DecidableEq

/-- The all-empty result returned on a null `hass` or an unknown strategy. -/
def emptyResult : CollectResult :=
  { alertDevices := [], normalDevices := [], unavailableDevices := []
    allDevices := [], totalDevices := 0 }

/-- The battery pre-pass: for every `binary_sensor.*_battery_low` entity id
in the snapshot, derive the sibling `sensor.*_battery` id to exclude. -/
def batteryLowBinarySensors (entities : List (String × Entity)) : List String :=
  (entities.map Prod.fst).filterMap fun entityId =>
    if strContains entityId "_battery_low" && strStartsWith entityId "binary_sensor." then
      some (strReplaceFirst (strReplaceFirst entityId "binary_sensor." "sensor.")
        "_battery_low" "_battery")
    else none

/-- `collectDevices` for a non-null `hass`. -/
def collectDevicesCore (hass : Hass) (config : Config) (options : Options) : CollectResult :=
  let entityType := jsOr config.entity_type "battery"
  match ENTITY_TYPES entityType with
  | none => emptyResult
  | some strategy =>
    let includeArea := options.includeArea
    let entities := hass.states
    let exclusionSet := if entityType = "battery" then batteryLowBinarySensors entities else []
    let devices := entities.foldl
      (fun m p => processEntity hass config strategy entityType includeArea exclusionSet m p.1 p.2)
      []
    let allDevices := devices.map Prod.snd
    { alertDevices := allDevices.filter fun d => d.stateInfo.isAlert
      normalDevices := allDevices.filter fun d => !d.stateInfo.isAlert
      unavailableDevices := allDevices.filter fun d => d.stateInfo.isUnavailable
      allDevices := allDevices
      totalDevices := allDevices.length }

/-- `collectDevices(hass, config, options)` for own-key strategy
resolution: a null `hass` gives the empty result, otherwise the
aggregation pass runs. The full JavaScript property-lookup behaviour,
including the `TypeError` thrown for `Object.prototype` key names, is
modelled by `collectDevicesJS` further below. -/
def collectDevices (hass : Option Hass) (config : Config) (options : Options) : CollectResult :=
  match hass with
  | none => emptyResult
  | some h => collectDevicesCore h config options

/-! ## GroupSortTransform: _groupDevices / _sortDevices / _applySorting -/

/-- An element of a grouped list: a device row or a group-header marker
(`{ isGroupHeader: true, groupName }`). -/
inductive GroupedItem where
  | device (record : DeviceRecord)
  | header (groupName : String)
  deriving Repr, DecidableEq

/-- The group key computed for one device inside `_groupDevices`: area name
(falsy → `"No Area"`) for `area`; the `areaId → floorId → floorName` chain
for `floor`, where a missing/falsy `areaId` or `floorId` gives `"No Floor"`
but a failing `getFloorName` gives the JavaScript `null` key, which object
key coercion turns into the string `"null"`; every other `groupBy` value
leaves the initial `"Unknown"`. -/
def groupKeyOf (hass : Hass) (groupBy : String) (d : DeviceRecord) : String :=
  if groupBy = "area" then jsOr d.areaName "No Area"
  else if groupBy = "floor" then
    let floorId := match strTruthy d.areaId with
      | some a => registryHelpers.getFloorId hass a
      | none => none
    match floorId with
    | some f =>
      match registryHelpers.getFloorName hass f with
      | some n => n
      | none => "null"
    | none => "No Floor"
  else "Unknown"

/-- `grouped[groupKey].push(device)` with on-demand bucket creation:
append to the bucket at an existing key, or append a new singleton bucket. -/
def addToGroup (m : List (String × List DeviceRecord)) (k : String) (d : DeviceRecord) :
    List (String × List DeviceRecord) :=
  match m with
  | [] => [(k, [d])]
  | (k1, ds) :: rest =>
    if k1 = k then (k1, ds ++ [d]) :: rest else (k1, ds) :: addToGroup rest k d

/-- Sort a list of group names with the JavaScript default `Array.sort()`
(code-point lexicographic). -/
def sortStrings (l : List String) : List String := List.insertionSort strLe l

/-- `DeviceMonitorCard._groupDevices`, as a function of the card
fields `this._hass` and `this._config`: falsy or `"none"` grouping is the
identity, otherwise devices are bucketed by `groupKeyOf` and flattened
back with one header per bucket, buckets in sorted key order. -/
def _groupDevices (hass : Hass) (config : Config) (devices : List DeviceRecord) :
    List GroupedItem :=
  match strTruthy config.group_by with
  | none => devices.map GroupedItem.device
  | some groupBy =>
    if groupBy = "none" then devices.map GroupedItem.device
    else
      let grouped := devices.foldl (fun m d => addToGroup m (groupKeyOf hass groupBy d) d) []
      (sortStrings (grouped.map Prod.fst)).flatMap fun groupName =>
        GroupedItem.header groupName ::
          ((alookup grouped groupName).getD []).map GroupedItem.device

/-- The name a sort comparator uses: entity name or device name. -/
def nameOf (useEntityName : Bool) (d : DeviceRecord) : String :=
  if useEntityName then d.entityName else d.deviceName

/-- Boolean form of the `name` comparator (`localeCompare ≤ 0`). -/
def nameLeB (useEntityName : Bool) (a b : DeviceRecord) : Bool :=
  strLeB (nameOf useEntityName a) (nameOf useEntityName b)

/-- Boolean form of the default `state` comparator: ascending numeric when
both records carry a numeric value, else the `name` comparator. -/
def stateLeB (useEntityName : Bool) (a b : DeviceRecord) : Bool :=
  match a.stateInfo.numericValue, b.stateInfo.numericValue with
  | some x, some y => decide (x ≤ y)
  | _, _ => nameLeB useEntityName a b

/-- `DeviceMonitorCard._applySorting`: one stable sort of a device run by
the configured comparator (`name`, `last_changed` descending, or the
default `state`). -/
def _applySorting (sortBy : String) (useEntityName : Bool)
    (devices : List DeviceRecord) : List DeviceRecord :=
  if sortBy = "name" then
    List.insertionSort (fun a b => nameLeB useEntityName a b = true) devices
  else if sortBy = "last_changed" then
    List.insertionSort (fun a b => strLeB b.lastChanged a.lastChanged = true) devices
  else
    List.insertionSort (fun a b => stateLeB useEntityName a b = true) devices

/-- Header test (`d.isGroupHeader`). -/
def isGroupHeader : GroupedItem → Bool
  | GroupedItem.header _ => true
  | GroupedItem.device _ => false

/-- Projection of a grouped item to its device record, if any. -/
def getDeviceRecord : GroupedItem → Option DeviceRecord
  | GroupedItem.device d => some d
  | GroupedItem.header _ => none

/-- The `_sortDevices` loop over a grouped list: collect each contiguous
run of devices into `currentGroup`, flushing it (sorted) before every
header and at the end. -/
def sortRuns (sortBy : String) (useEntityName : Bool) :
    List GroupedItem → List DeviceRecord → List GroupedItem
  | [], currentGroup =>
    (_applySorting sortBy useEntityName currentGroup).map GroupedItem.device
  | GroupedItem.header g :: rest, currentGroup =>
    (_applySorting sortBy useEntityName currentGroup).map GroupedItem.device
      ++ GroupedItem.header g :: sortRuns sortBy useEntityName rest []
  | GroupedItem.device d :: rest, currentGroup =>
    sortRuns sortBy useEntityName rest (currentGroup ++ [d])

/-- `DeviceMonitorCard._sortDevices`, as a function of `this._config`:
a flat list is sorted once; a list with headers is sorted run-by-run. -/
def _sortDevices (config : Config) (devices : List GroupedItem) : List GroupedItem :=
  let sortBy := jsOr config.sort_by "state"
  let useEntityName := decide (config.name_source = some "entity")
  if devices.any isGroupHeader then sortRuns sortBy useEntityName devices []
  else
    (_applySorting sortBy useEntityName (devices.filterMap getDeviceRecord)).map
      GroupedItem.device

/-! ## Helper lemmas -/

theorem strMem_iff (s : String) (l : List String) : strMem s l = true ↔ s ∈ l := by
  induction l with
  | nil => simp [strMem]
  | cons x xs ih =>
    by_cases h : x = s
    · subst h; simp [strMem]
    · have hne : s ≠ x := fun hh => h hh.symm
      simp [strMem, h, ih, hne]

theorem length_filter_not_add {α : Type} (p : α → Bool) (l : List α) :
    (l.filter p).length + (l.filter fun a => !(p a)).length = l.length := by
  induction l with
  | nil => rfl
  | cons a t ih => by_cases h : p a <;> simp [List.filter_cons, h] <;> omega

theorem upsert_keys {α : Type} (m : List (String × α)) (k : String) (v : α) :
    (upsert m k v).map Prod.fst =
      if k ∈ m.map Prod.fst then m.map Prod.fst else m.map Prod.fst ++ [k] := by
  induction m with
  | nil => simp [upsert]
  | cons p rest ih =>
    obtain ⟨k1, v1⟩ := p
    by_cases h : k1 = k
    · subst h; simp [upsert]
    · have hne : ¬ k = k1 := fun hh => h hh.symm
      simp only [upsert, if_neg h, List.map_cons, List.mem_cons, ih]
      by_cases hmem : k ∈ rest.map Prod.fst
      · simp [hmem, hne]
      · simp [hmem, hne]

theorem upsert_mem {α : Type} (m : List (String × α)) (k : String) (v : α) :
    ∀ p ∈ upsert m k v, p ∈ m ∨ p = (k, v) := by
  induction m with
  | nil => intro p hp; simp [upsert] at hp; right; exact hp
  | cons q rest ih =>
    obtain ⟨k1, v1⟩ := q
    intro p hp
    by_cases h : k1 = k
    · subst h
      rw [upsert, if_pos rfl] at hp
      rcases List.mem_cons.mp hp with hp1 | hp1
      · right; exact hp1
      · left; exact List.mem_cons_of_mem _ hp1
    · rw [upsert, if_neg h] at hp
      rcases List.mem_cons.mp hp with hp1 | hp1
      · left; rw [hp1]; exact List.mem_cons_self _ _
      · rcases ih p hp1 with hin | heq
        · left; exact List.mem_cons_of_mem _ hin
        · right; exact heq

theorem alookup_upsert_self {α : Type} (m : List (String × α)) (k : String) (v : α) :
    alookup (upsert m k v) k = some v := by
  induction m with
  | nil => simp [upsert, alookup]
  | cons p rest ih =>
    obtain ⟨k1, v1⟩ := p
    by_cases h : k1 = k
    · subst h; simp [upsert, alookup]
    · simp [upsert, alookup, h, ih]

theorem alookup_upsert_other {α : Type} (m : List (String × α)) (k k2 : String) (v : α)
    (h : k2 ≠ k) : alookup (upsert m k v) k2 = alookup m k2 := by
  have hne : ¬ k = k2 := fun hh => h hh.symm
  induction m with
  | nil => simp [upsert, alookup, hne]
  | cons p rest ih =>
    obtain ⟨k1, v1⟩ := p
    by_cases h1 : k1 = k
    · subst h1
      simp [upsert, alookup, hne]
    · simp [upsert, alookup, h1, ih]

/-! ## The per-key invariant of the aggregation pass (claims C1/C2) -/

/-- The aggregation key stored in a record: `deviceId` for battery,
`entityId` for every other entity type. -/
def recordKey (entityType : String) (r : DeviceRecord) : String :=
  if entityType = "battery" then r.deviceId else r.entityId

/-- Invariant of the `devices` accumulator: keys are distinct, and every
stored record has an aggregation key equal to its storage key. -/
def DevMapInv (entityType : String) (m : List (String × DeviceRecord)) : Prop :=
  (m.map Prod.fst).Nodup ∧ ∀ p ∈ m, recordKey entityType p.2 = p.1

theorem processEntity_inv (hass : Hass) (config : Config) (strategy : Strategy)
    (entityType : String) (includeArea : Bool) (excl : List String)
    (m : List (String × DeviceRecord)) (entityId : String) (entity : Entity)
    (h : DevMapInv entityType m) :
    DevMapInv entityType
      (processEntity hass config strategy entityType includeArea excl m entityId entity) := by
  unfold processEntity
  by_cases h1 : (strategy.detect entityId entity.attributes : Bool)
  case neg => simp [h1, h]
  simp only [h1, Bool.not_true, Bool.false_eq_true, if_false]
  by_cases h2 : (registryHelpers.isEntityHidden hass entityId : Bool)
  case pos => simp [h2, h]
  simp only [h2, Bool.false_eq_true, if_false]
  by_cases h3 : (decide (entityType = "battery") && strMem entityId excl) = true
  case pos => simp [h3, h]
  simp only [h3, Bool.false_eq_true, if_false]
  cases hres : resolveDevice hass includeArea entityId entity.attributes with
  | none => exact h
  | some tup =>
    obtain ⟨deviceId, deviceName, areaId, areaName⟩ := tup
    simp only []
    set key := if entityType = "battery" then deviceId else entityId with hkey
    set rec := mkDeviceRecord includeArea entityId entity deviceId deviceName areaId areaName
      (evaluatedStateInfo strategy entityId entity config hass) with hrec
    have hreckey : recordKey entityType rec = key := by
      by_cases hb : entityType = "battery" <;> simp [recordKey, hrec, mkDeviceRecord, hb, hkey]
    have hup : DevMapInv entityType (upsert m key rec) := by
      constructor
      · rw [upsert_keys]
        by_cases hmem : key ∈ m.map Prod.fst
        · rw [if_pos hmem]; exact h.1
        · rw [if_neg hmem]
          rw [List.nodup_append]
          refine ⟨h.1, by simp, ?_⟩
          intro a ha hb
          simp only [List.mem_singleton] at hb
          subst hb
          exact hmem ha
      · intro p hp
        rcases upsert_mem m key rec p hp with hin | heq
        · exact h.2 p hin
        · rw [heq]; exact hreckey
    cases halo : alookup m key with
    | none => simpa [halo] using hup
    | some existing =>
      by_cases hshould :
          (decide (entityType = "battery") &&
            (evaluatedStateInfo strategy entityId entity config hass).numericValue.isSome &&
            existing.stateInfo.numericValue.isNone) = true
      · simpa [halo, hshould] using hup
      · simpa [halo, hshould] using h

theorem foldl_processEntity_inv (hass : Hass) (config : Config) (strategy : Strategy)
    (entityType : String) (includeArea : Bool) (excl : List String)
    (entities : List (String × Entity)) (m : List (String × DeviceRecord))
    (h : DevMapInv entityType m) :
    DevMapInv entityType
      (entities.foldl
        (fun acc p =>
          processEntity hass config strategy entityType includeArea excl acc p.1 p.2) m) := by
  induction entities generalizing m with
  | nil => exact h
  | cons p rest ih =>
    exact ih _ (processEntity_inv hass config strategy entityType includeArea excl m p.1 p.2 h)

theorem collectDevicesCore_recordKey_nodup (hass : Hass) (config : Config)
    (options : Options) :
    ((collectDevicesCore hass config options).allDevices.map
      (recordKey (jsOr config.entity_type "battery"))).Nodup := by
  simp only [collectDevicesCore]
  cases hstrat : ENTITY_TYPES (jsOr config.entity_type "battery") with
  | none => simp [emptyResult]
  | some strategy =>
    simp only []
    have hinv := foldl_processEntity_inv hass config strategy
      (jsOr config.entity_type "battery") options.includeArea
      (if jsOr config.entity_type "battery" = "battery"
        then batteryLowBinarySensors hass.states else [])
      hass.states [] ⟨List.nodup_nil, by simp⟩
    set dm := hass.states.foldl
      (fun acc p =>
        processEntity hass config strategy (jsOr config.entity_type "battery")
          options.includeArea
          (if jsOr config.entity_type "battery" = "battery"
            then batteryLowBinarySensors hass.states else [])
          acc p.1 p.2) [] with hdm
    have hmap : dm.map (fun p => recordKey (jsOr config.entity_type "battery") p.2) =
        dm.map Prod.fst :=
      List.map_congr_left fun p hp => hinv.2 p hp
    have : (dm.map Prod.snd).map (recordKey (jsOr config.entity_type "battery")) =
        dm.map Prod.fst := by
      rw [List.map_map]; exact hmap
    rw [this]
    exact hinv.1

/-- C1: for every host snapshot and every config, the `collectDevices`
result satisfies `alertDevices.length + normalDevices.length =
totalDevices`: the alert/normal partition of `allDevices` is exact, and
`unavailableDevices` plays no role in the equation. -/
theorem collectDevices_alert_normal_partition (hass : Option Hass) (config : Config)
    (options : Options) :
    (collectDevices hass config options).alertDevices.length +
      (collectDevices hass config options).normalDevices.length =
      (collectDevices hass config options).totalDevices := by
  cases hass with
  | none => rfl
  | some h =>
    show (collectDevicesCore h config options).alertDevices.length +
      (collectDevicesCore h config options).normalDevices.length =
      (collectDevicesCore h config options).totalDevices
    simp only [collectDevicesCore]
    cases hstrat : ENTITY_TYPES (jsOr config.entity_type "battery") with
    | none => rfl
    | some strategy =>
      exact length_filter_not_add _ _

/-! ## Concrete snapshots used by the claim instances -/

/-- Two light entities that belong to the same physical device. -/
def twoLightsHass : Hass :=
  { states := [("light.l1", { state := "on" }), ("light.l2", { state := "off" })]
    entities := [("light.l1", { device_id := some "dev1" }),
                 ("light.l2", { device_id := some "dev1" })]
    devices := [("dev1", { name := some "Lamp" })] }

/-- A light-monitoring configuration. -/
def lightConfig : Config := { entity_type := some "light" }

/-- A battery-monitoring configuration (all other options defaulted). -/
def batteryConfig : Config := { entity_type := some "battery" }

/-- C2: the aggregation key of `collectDevices` is the resolved device id
for `entity_type = battery` and the entity id for every other type: for
battery the output never contains two records with the same `deviceId`,
for non-battery types it never contains two records with the same
`entityId`, and two light entities of one physical device produce two
distinct records sharing one `deviceId`. -/
theorem collectDevices_aggregation_key_asymmetry :
    (∀ (hass : Hass) (config : Config) (options : Options),
      jsOr config.entity_type "battery" = "battery" →
      ((collectDevices (some hass) config options).allDevices.map
        DeviceRecord.deviceId).Nodup) ∧
    (∀ (hass : Hass) (config : Config) (options : Options),
      jsOr config.entity_type "battery" ≠ "battery" →
      ((collectDevices (some hass) config options).allDevices.map
        DeviceRecord.entityId).Nodup) ∧
    ((collectDevices (some twoLightsHass) lightConfig {}).allDevices.map
      (fun r => (r.deviceId, r.entityId))) =
      [("dev1", "light.l1"), ("dev1", "light.l2")] := by
  refine ⟨?_, ?_, by decide⟩
  · intro hass config options hbat
    have h := collectDevicesCore_recordKey_nodup hass config options
    have : (collectDevicesCore hass config options).allDevices.map
        (recordKey (jsOr config.entity_type "battery")) =
        (collectDevicesCore hass config options).allDevices.map DeviceRecord.deviceId :=
      List.map_congr_left fun r _ => by simp [recordKey, hbat]
    rw [this] at h
    exact h
  · intro hass config options hbat
    have h := collectDevicesCore_recordKey_nodup hass config options
    have : (collectDevicesCore hass config options).allDevices.map
        (recordKey (jsOr config.entity_type "battery")) =
        (collectDevicesCore hass config options).allDevices.map DeviceRecord.entityId :=
      List.map_congr_left fun r _ => by simp [recordKey, hbat]
    rw [this] at h
    exact h

/-- C2 witness: the battery branch of the key-asymmetry theorem applied to a
concrete battery snapshot, and the non-battery branch applied to the
two-lights snapshot. -/
theorem collectDevices_aggregation_key_asymmetry_witness :
    ((collectDevices (some twoLightsHass) batteryConfig {}).allDevices.map
      DeviceRecord.deviceId).Nodup ∧
    ((collectDevices (some twoLightsHass) lightConfig {}).allDevices.map
      DeviceRecord.entityId).Nodup :=
  ⟨collectDevices_aggregation_key_asymmetry.1 twoLightsHass batteryConfig {} (by decide),
    collectDevices_aggregation_key_asymmetry.2.1 twoLightsHass lightConfig {} (by decide)⟩

/-- The battery de-duplication snapshot: `binary_sensor.x_battery_low` and
`sensor.x_battery`, both resolvable to the registered device `x`, with
arbitrary states and either iteration order. -/
def c3Hass (sb ss : String) (flipped : Bool) : Hass :=
  { states :=
      if flipped then
        [("sensor.x_battery", { state := ss }),
         ("binary_sensor.x_battery_low", { state := sb })]
      else
        [("binary_sensor.x_battery_low", { state := sb }),
         ("sensor.x_battery", { state := ss })]
    entities := [("binary_sensor.x_battery_low", { device_id := some "x" }),
                 ("sensor.x_battery", { device_id := some "x" })]
    devices := [("x", { name := some "Device X" })] }

/-- The de-duplication snapshot extended by a third battery-named numeric
entity (`sensor.x_battery_temp`, for example a battery-temperature sensor;
`_temp` is not an excluded suffix) on the same device `x`. -/
def c3xHass (flipped : Bool) : Hass :=
  { states :=
      if flipped then
        [("sensor.x_battery_temp", { state := "45" }),
         ("sensor.x_battery", { state := "50" }),
         ("binary_sensor.x_battery_low", { state := "on" })]
      else
        [("binary_sensor.x_battery_low", { state := "on" }),
         ("sensor.x_battery", { state := "50" }),
         ("sensor.x_battery_temp", { state := "45" })]
    entities := [("binary_sensor.x_battery_low", { device_id := some "x" }),
                 ("sensor.x_battery", { device_id := some "x" }),
                 ("sensor.x_battery_temp", { device_id := some "x" })]
    devices := [("x", { name := some "Device X" })] }

/-- C3 counterexample: a snapshot containing both
`binary_sensor.x_battery_low` and `sensor.x_battery` (the claim premise)
plus a third numeric battery entity of device `x`. The numeric-preference
update replaces the binary-sensor record, so the single record for `x` is
sourced from `sensor.x_battery_temp`, not from the binary sensor — in
either iteration order. -/
theorem collectDevices_battery_dedup_counterexample :
    ((collectDevices (some (c3xHass false)) batteryConfig {}).allDevices.map
      (fun r => (r.deviceId, r.entityId))) = [("x", "sensor.x_battery_temp")] ∧
    ((collectDevices (some (c3xHass true)) batteryConfig {}).allDevices.map
      (fun r => (r.deviceId, r.entityId))) = [("x", "sensor.x_battery_temp")] ∧
    ("sensor.x_battery_temp" : String) ≠ "binary_sensor.x_battery_low" := by
  refine ⟨by decide, by decide, by decide⟩

theorem mem_ite_list {α : Type} {c : Prop} [Decidable c] {l1 l2 : List α} {x : α}
    (h : x ∈ if c then l1 else l2) : x ∈ l1 ∨ x ∈ l2 := by
  by_cases hc : c
  · rw [if_pos hc] at h; exact Or.inl h
  · rw [if_neg hc] at h; exact Or.inr h

theorem processEntity_entityId_ne (hass : Hass) (config : Config) (strategy : Strategy)
    (includeArea : Bool) (excl : List String) (m : List (String × DeviceRecord))
    (entityId : String) (entity : Entity) (target : String)
    (htarget : strMem target excl = true)
    (hm : ∀ p ∈ m, (p.2 : DeviceRecord).entityId ≠ target) :
    ∀ p ∈ processEntity hass config strategy "battery" includeArea excl m entityId entity,
      p.2.entityId ≠ target := by
  unfold processEntity
  by_cases h1 : (strategy.detect entityId entity.attributes : Bool)
  case neg => simpa [h1] using hm
  simp only [h1, Bool.not_true, Bool.false_eq_true, if_false]
  by_cases h2 : (registryHelpers.isEntityHidden hass entityId : Bool)
  case pos => simpa [h2] using hm
  simp only [h2, Bool.false_eq_true, if_false]
  by_cases h3 : strMem entityId excl = true
  case pos => simpa [h3] using hm
  have hsm : strMem entityId excl = false := by
    revert h3
    cases strMem entityId excl <;> simp
  simp only [hsm, Bool.and_false, Bool.false_eq_true, if_false]
  have hne : entityId ≠ target := by
    intro he
    rw [he, htarget] at hsm
    exact Bool.noConfusion hsm
  cases hres : resolveDevice hass includeArea entityId entity.attributes with
  | none => exact hm
  | some tup =>
    obtain ⟨deviceId, deviceName, areaId, areaName⟩ := tup
    simp only []
    intro p hp
    rcases mem_ite_list hp with hp1 | hp1
    · rcases upsert_mem _ _ _ p hp1 with hin | heq
      · exact hm p hin
      · rw [heq]
        simpa [mkDeviceRecord] using hne
    · exact hm p hp1

theorem foldl_processEntity_entityId_ne (hass : Hass) (config : Config)
    (strategy : Strategy) (includeArea : Bool) (excl : List String) (target : String)
    (htarget : strMem target excl = true) (entities : List (String × Entity)) :
    ∀ m : List (String × DeviceRecord),
      (∀ p ∈ m, (p.2 : DeviceRecord).entityId ≠ target) →
      ∀ p ∈ entities.foldl
          (fun acc q =>
            processEntity hass config strategy "battery" includeArea excl acc q.1 q.2) m,
        p.2.entityId ≠ target := by
  induction entities with
  | nil => intro m hm; exact hm
  | cons q rest ih =>
    intro m hm
    exact ih _ (processEntity_entityId_ne hass config strategy includeArea excl m q.1 q.2
      target htarget hm)

theorem collectDevices_battery_allDevices (hass : Hass) (config : Config)
    (options : Options) (hbat : jsOr config.entity_type "battery" = "battery") :
    (collectDevices (some hass) config options).allDevices =
      (hass.states.foldl
        (fun m p =>
          processEntity hass config ⟨batteryDetect, batteryEvaluateState⟩ "battery"
            options.includeArea (batteryLowBinarySensors hass.states) m p.1 p.2)
        []).map Prod.snd := by
  show (collectDevicesCore hass config options).allDevices = _
  simp only [collectDevicesCore, hbat]
  rfl

/-- C3 (amended): battery de-duplication. For every snapshot whose state
keys include `binary_sensor.x_battery_low` and every battery config, the
`sensor.x_battery` entity is excluded from aggregation entirely (no output
record is sourced from it), and the battery aggregation key allows at most
one record per device, so at most one record for device `x`; when the two
entities are the only ones resolving to device `x`, the single record for
`x` is sourced from the binary sensor (any states, either iteration
order). A further numeric battery entity of device `x` instead becomes
the record through the numeric-preference rule. -/
theorem collectDevices_battery_dedup_amended :
    (∀ (hass : Hass) (config : Config) (options : Options),
      jsOr config.entity_type "battery" = "battery" →
      "binary_sensor.x_battery_low" ∈ hass.states.map Prod.fst →
      ((collectDevices (some hass) config options).allDevices.all
        fun r => decide (r.entityId ≠ "sensor.x_battery")) = true) ∧
    (∀ (hass : Hass) (config : Config) (options : Options),
      jsOr config.entity_type "battery" = "battery" →
      ((collectDevices (some hass) config options).allDevices.map
        DeviceRecord.deviceId).Nodup) ∧
    (∀ (sb ss : String) (flipped : Bool),
      ((collectDevices (some (c3Hass sb ss flipped)) batteryConfig {}).allDevices.map
        (fun r => (r.deviceId, r.entityId))) = [("x", "binary_sensor.x_battery_low")]) := by
  refine ⟨?_, ?_, ?_⟩
  · intro hass config options hbat hmemb
    have hexcl : strMem "sensor.x_battery" (batteryLowBinarySensors hass.states) = true := by
      rw [strMem_iff]
      unfold batteryLowBinarySensors
      exact List.mem_filterMap.mpr ⟨"binary_sensor.x_battery_low", hmemb, by decide⟩
    rw [List.all_eq_true]
    intro r hr
    rw [decide_eq_true_eq]
    rw [collectDevices_battery_allDevices hass config options hbat] at hr
    obtain ⟨p, hp, rfl⟩ := List.mem_map.mp hr
    exact foldl_processEntity_entityId_ne hass config ⟨batteryDetect, batteryEvaluateState⟩
      options.includeArea (batteryLowBinarySensors hass.states) "sensor.x_battery" hexcl
      hass.states [] (by simp) p hp
  · intro hass config options hbat
    have h := collectDevicesCore_recordKey_nodup hass config options
    have heq : (collectDevicesCore hass config options).allDevices.map
        (recordKey (jsOr config.entity_type "battery")) =
        (collectDevicesCore hass config options).allDevices.map DeviceRecord.deviceId :=
      List.map_congr_left fun r _ => by simp [recordKey, hbat]
    rw [heq] at h
    exact h
  · intro sb ss flipped
    cases flipped <;> rfl

/-- C3 witness: the universal exclusion branch of the amended theorem
applied to the three-entity snapshot, hypotheses discharged concretely. -/
theorem collectDevices_battery_dedup_amended_witness :
    ((collectDevices (some (c3xHass false)) batteryConfig {}).allDevices.all
      fun r => decide (r.entityId ≠ "sensor.x_battery")) = true :=
  collectDevices_battery_dedup_amended.1 (c3xHass false) batteryConfig {} (by decide)
    (by decide)

/-- The C10 snapshot: like `c3Hass`, but the `binary_sensor.x_battery_low`
entity is registry-hidden, so it produces no record of its own. -/
def c10Hass (flipped : Bool) : Hass :=
  { states :=
      if flipped then
        [("sensor.x_battery", { state := "5" }),
         ("binary_sensor.x_battery_low", { state := "on" })]
      else
        [("binary_sensor.x_battery_low", { state := "on" }),
         ("sensor.x_battery", { state := "5" })]
    entities := [("binary_sensor.x_battery_low", { device_id := some "x", hidden := true }),
                 ("sensor.x_battery", { device_id := some "x" })]
    devices := [("x", { name := some "Device X" })] }

/-- C10: the battery exclusion pre-pass is keyed on entity-id presence
alone. With `binary_sensor.x_battery_low` present but registry-hidden,
`sensor.x_battery` is still excluded, the hidden binary sensor is skipped,
and device `x` appears nowhere in the output — in either iteration order. -/
theorem collectDevices_exclusion_presence_only (flipped : Bool) :
    (collectDevices (some (c10Hass flipped)) batteryConfig {}).allDevices = [] ∧
    (collectDevices (some (c10Hass flipped)) batteryConfig {}).totalDevices = 0 := by
  cases flipped <;> exact ⟨rfl, rfl⟩


/-- Two battery entities of one device, one numeric (`"45"`) and one
symbolic (`"low"`), in either iteration order. -/
def c4Hass (flipped : Bool) : Hass :=
  { states :=
      if flipped then
        [("sensor.phone_backup_battery", { state := "low" }),
         ("sensor.phone_battery", { state := "45" })]
      else
        [("sensor.phone_battery", { state := "45" }),
         ("sensor.phone_backup_battery", { state := "low" })]
    entities := [("sensor.phone_battery", { device_id := some "phone" }),
                 ("sensor.phone_backup_battery", { device_id := some "phone" })]
    devices := [("phone", { name := some "Phone" })] }

/-- C4: the per-key update policy. Once a key holds a record, a later
entity for the same key replaces it exactly when the entity type is
battery, the new `StateInfo` has a numeric value and the stored one has
none; consequently a numeric (`"45"`) and a symbolic (`"low"`) battery
entity on one device end with `numericValue = 45` in either iteration
order. -/
theorem processEntity_update_policy :
    (∀ (hass : Hass) (config : Config) (strategy : Strategy) (entityType : String)
        (includeArea : Bool) (excl : List String)
        (devices : List (String × DeviceRecord)) (entityId : String) (entity : Entity)
        (deviceId deviceName : String) (areaId areaName : Option String)
        (existing : DeviceRecord),
      strategy.detect entityId entity.attributes = true →
      registryHelpers.isEntityHidden hass entityId = false →
      (decide (entityType = "battery") && strMem entityId excl) = false →
      resolveDevice hass includeArea entityId entity.attributes =
        some (deviceId, deviceName, areaId, areaName) →
      alookup devices (if entityType = "battery" then deviceId else entityId) =
        some existing →
      alookup
          (processEntity hass config strategy entityType includeArea excl devices
            entityId entity)
          (if entityType = "battery" then deviceId else entityId) =
        some
          (if entityType = "battery" ∧
              (evaluatedStateInfo strategy entityId entity config hass).numericValue.isSome
                = true ∧
              existing.stateInfo.numericValue = none
            then
              mkDeviceRecord includeArea entityId entity deviceId deviceName areaId
                areaName (evaluatedStateInfo strategy entityId entity config hass)
            else existing)) ∧
    (∀ flipped : Bool,
      ((collectDevices (some (c4Hass flipped)) batteryConfig {}).allDevices.map
        fun r => r.stateInfo.numericValue) = [some 45]) := by
  constructor
  · intro hass config strategy entityType includeArea excl devices entityId entity
      deviceId deviceName areaId areaName existing hdet hhid hexcl hres halo
    unfold processEntity
    rw [hdet, hhid, hexcl]
    simp only [Bool.not_true, Bool.false_eq_true, if_false, hres, halo]
    by_cases hcond : entityType = "battery" ∧
        (evaluatedStateInfo strategy entityId entity config hass).numericValue.isSome
          = true ∧
        existing.stateInfo.numericValue = none
    · have hbool : (decide (entityType = "battery") &&
          (evaluatedStateInfo strategy entityId entity config hass).numericValue.isSome &&
          existing.stateInfo.numericValue.isNone) = true := by
        obtain ⟨hb, hn, he⟩ := hcond
        simp [hb, hn, Option.isNone_iff_eq_none, he]
      rw [hbool, if_pos rfl, if_pos hcond]
      exact alookup_upsert_self _ _ _
    · have hbool : (decide (entityType = "battery") &&
          (evaluatedStateInfo strategy entityId entity config hass).numericValue.isSome &&
          existing.stateInfo.numericValue.isNone) = false := by
        cases hB : (decide (entityType = "battery") &&
            (evaluatedStateInfo strategy entityId entity config hass).numericValue.isSome &&
            existing.stateInfo.numericValue.isNone) with
        | false => rfl
        | true =>
          exfalso
          apply hcond
          simp only [Bool.and_eq_true, decide_eq_true_eq,
            Option.isNone_iff_eq_none, and_assoc] at hB
          exact hB
      rw [hbool, if_neg (by simp), if_neg hcond]
      exact halo
  · intro flipped
    cases flipped <;> decide

/-- C4 witness: the update-policy branch applied at a concrete map holding a
symbolic battery record for device `phone` while a numeric `"45"` entity
for the same device arrives; every hypothesis is discharged concretely. -/
theorem processEntity_update_policy_witness :
    alookup
        (processEntity (c4Hass false) batteryConfig ⟨batteryDetect, batteryEvaluateState⟩
          "battery" false []
          [("phone",
            mkDeviceRecord false "sensor.phone_backup_battery" { state := "low" } "phone"
              "Phone" none none
              (evaluatedStateInfo ⟨batteryDetect, batteryEvaluateState⟩
                "sensor.phone_backup_battery" { state := "low" } batteryConfig
                (c4Hass false)))]
          "sensor.phone_battery" { state := "45" })
        (if ("battery" : String) = "battery" then "phone" else "sensor.phone_battery") =
      some
        (if ("battery" : String) = "battery" ∧
            (evaluatedStateInfo ⟨batteryDetect, batteryEvaluateState⟩
              "sensor.phone_battery" { state := "45" } batteryConfig
              (c4Hass false)).numericValue.isSome = true ∧
            (mkDeviceRecord false "sensor.phone_backup_battery" { state := "low" } "phone"
              "Phone" none none
              (evaluatedStateInfo ⟨batteryDetect, batteryEvaluateState⟩
                "sensor.phone_backup_battery" { state := "low" } batteryConfig
                (c4Hass false))).stateInfo.numericValue = none
          then
            mkDeviceRecord false "sensor.phone_battery" { state := "45" } "phone" "Phone"
              none none
              (evaluatedStateInfo ⟨batteryDetect, batteryEvaluateState⟩
                "sensor.phone_battery" { state := "45" } batteryConfig (c4Hass false))
          else
            mkDeviceRecord false "sensor.phone_backup_battery" { state := "low" } "phone"
              "Phone" none none
              (evaluatedStateInfo ⟨batteryDetect, batteryEvaluateState⟩
                "sensor.phone_backup_battery" { state := "low" } batteryConfig
                (c4Hass false))) :=
  processEntity_update_policy.1 (c4Hass false) batteryConfig
    ⟨batteryDetect, batteryEvaluateState⟩ "battery" false [] _ "sensor.phone_battery"
    { state := "45" } "phone" "Phone" none none _ (by decide) (by decide) (by decide)
    (by decide) (by decide)

/-- An empty host snapshot (the formatter and registries play no role in the
threshold computation). -/
def emptyHass : Hass := { states := [] }

/-- A battery configuration with `battery_threshold = 0`. -/
def zeroThresholdConfig : Config :=
  { entity_type := some "battery", battery_threshold := some 0 }

/-- A battery configuration with `battery_threshold = 20`. -/
def threshold20Config : Config :=
  { entity_type := some "battery", battery_threshold := some 20 }

/-- C5 counterexample: with `battery_threshold = 0` and numeric state
`"10"`, the code reports an alert (JavaScript `config.battery_threshold ||
20` treats the configured `0` as falsy and uses the default `20`), while
the claim formula `isAlert = (v < t)` demands `10 < 0`, which is false — so the
universally quantified threshold clause of the claim fails at `t = 0`. -/
theorem batteryEvaluateState_threshold_counterexample :
    (batteryEvaluateState "sensor.a_battery" { state := "10" } zeroThresholdConfig
      emptyHass).isAlert = true ∧
    ¬ ((10 : Rat) < 0) := by
  constructor
  · decide
  · decide

/-- C5 (amended): for every entity outside the `binary_sensor.*_battery_low`
branch whose state parses as a number `v`, the battery strategy sets
`isAlert = (v < t)` for the effective threshold
`t = jsOrRat config.battery_threshold 20` (a configured `0` or a missing
threshold falls back to the default `20`); at threshold `20`, state `"20"`
gives `isAlert = false` and `"19.9"` gives `isAlert = true`. -/
theorem batteryEvaluateState_strict_threshold :
    (∀ (entityId : String) (entity : Entity) (config : Config) (hass : Hass) (v : Rat),
      (strContains entityId "_battery_low" && strStartsWith entityId "binary_sensor.")
        = false →
      parseFloatQ entity.state = some v →
      (batteryEvaluateState entityId entity config hass).isAlert =
        decide (v < jsOrRat config.battery_threshold 20)) ∧
    (batteryEvaluateState "sensor.a_battery" { state := "20" } threshold20Config
      emptyHass).isAlert = false ∧
    (batteryEvaluateState "sensor.a_battery" { state := "19.9" } threshold20Config
      emptyHass).isAlert = true := by
  refine ⟨?_, by decide, by decide⟩
  intro entityId entity config hass v hnotlow hv
  unfold batteryEvaluateState
  rw [hnotlow]
  simp only [Bool.false_eq_true, if_false, hv]

/-- C5 witness: the amended threshold theorem applied at the concrete
boundary input (state `"19.9"`, threshold `20`). -/
theorem batteryEvaluateState_strict_threshold_witness :
    (batteryEvaluateState "sensor.a_battery" { state := "19.9" } threshold20Config
      emptyHass).isAlert =
      decide (mkRat 199 10 < jsOrRat threshold20Config.battery_threshold 20) :=
  batteryEvaluateState_strict_threshold.1 "sensor.a_battery" { state := "19.9" }
    threshold20Config emptyHass (mkRat 199 10) (by decide) (by decide)


/-- C6: lock semantics of the contact strategy. For a `lock.` entity,
`isAlert` holds exactly when the state is in
`{on, open, opening, unlocked, unlocking, jammed}` (so `"jammed"` alerts);
for every non-lock contact entity, `isAlert` holds exactly when the state
is `"on"`. -/
theorem contactEvaluateState_lock_semantics :
    (∀ (entityId : String) (entity : Entity) (config : Config) (hass : Hass),
      strStartsWith entityId "lock." = true →
      ((contactEvaluateState entityId entity config hass).isAlert = true ↔
        entity.state ∈ openStates)) ∧
    (∀ (entityId : String) (entity : Entity) (config : Config) (hass : Hass),
      strStartsWith entityId "lock." = false →
      ((contactEvaluateState entityId entity config hass).isAlert = true ↔
        entity.state = "on")) ∧
    (∀ (config : Config) (hass : Hass),
      (contactEvaluateState "lock.front_door" { state := "jammed" } config hass).isAlert
        = true) := by
  refine ⟨?_, ?_, ?_⟩
  · intro entityId entity config hass hlock
    unfold contactEvaluateState
    simp only [hlock, if_true, strMem_iff]
  · intro entityId entity config hass hlock
    unfold contactEvaluateState
    simp only [hlock, Bool.false_eq_true, if_false, decide_eq_true_eq]
  · intro config hass
    unfold contactEvaluateState
    simp [strStartsWith, strMem]

/-- C6 witness: the lock branch applied to a concrete `lock.` entity in
state `"unlocking"`. -/
theorem contactEvaluateState_lock_semantics_witness :
    (contactEvaluateState "lock.back_door" { state := "unlocking" } batteryConfig
      emptyHass).isAlert = true :=
  (contactEvaluateState_lock_semantics.1 "lock.back_door" { state := "unlocking" }
    batteryConfig emptyHass (by decide)).mpr (by decide)

/-- A snapshot with one perfectly resolvable battery entity. -/
def c9Hass : Hass :=
  { states := [("sensor.p_battery", { state := "5" })]
    entities := [("sensor.p_battery", { device_id := some "p" })]
    devices := [("p", { name := some "P" })] }

/-- The property names every plain JavaScript object inherits from
`Object.prototype`: a bracket lookup with one of these keys returns a
truthy inherited value (a function, or the prototype object itself for
`__proto__`) even though the key is not an own property. -/
def objectPrototypeKeys : List String :=
  ["constructor", "hasOwnProperty", "isPrototypeOf", "propertyIsEnumerable",
   "toLocaleString", "toString", "valueOf", "__defineGetter__", "__defineSetter__",
   "__lookupGetter__", "__lookupSetter__", "__proto__"]

/-- The outcome of the JavaScript property lookup `ENTITY_TYPES[entityType]`:
an own strategy entry, a truthy value inherited from `Object.prototype`,
or `undefined`. -/
inductive JSLookup where
  | strategy (s : Strategy)
  | inherited
  | undefinedVal

/-- Faithful model of the bracket lookup `ENTITY_TYPES[entityType]` on the
plain-object strategy table: own properties (`battery`, `contact`,
`light`) shadow the prototype; other `Object.prototype` property names
yield a truthy inherited value; everything else is `undefined`. -/
def ENTITY_TYPES_lookup (entityType : String) : JSLookup :=
  match ENTITY_TYPES entityType with
  | some s => JSLookup.strategy s
  | none =>
    if strMem entityType objectPrototypeKeys then JSLookup.inherited
    else JSLookup.undefinedVal

/-- The observable outcome of a `collectDevices` call: a returned result,
or the `TypeError` thrown when a truthy non-strategy value passes the
`!strategy` guard and `strategy.detect(...)` is called on an entity. -/
inductive CollectOutcome where
  | ok (result : CollectResult)
  | typeError
  deriving Repr, DecidableEq

/-- `collectDevices` with the full property-lookup semantics: a strategy
key behaves as `collectDevicesCore`; an `undefined` lookup fails soft with
the all-empty result; a key inherited from `Object.prototype` passes the
`!strategy` guard, and the per-entity loop then throws
`TypeError: strategy.detect is not a function` on the first entity — only
an empty snapshot escapes with the all-empty result. -/
def collectDevicesJS (hass : Option Hass) (config : Config) (options : Options) :
    CollectOutcome :=
  match hass with
  | none => CollectOutcome.ok emptyResult
  | some h =>
    match ENTITY_TYPES_lookup (jsOr config.entity_type "battery") with
    | JSLookup.strategy _ => CollectOutcome.ok (collectDevicesCore h config options)
    | JSLookup.undefinedVal => CollectOutcome.ok emptyResult
    | JSLookup.inherited =>
      if h.states.isEmpty then CollectOutcome.ok emptyResult
      else CollectOutcome.typeError

/-- C9 counterexample: `"toString"` is not one of
`{battery, contact, light}`, yet `collectDevices` neither returns the
all-empty result nor refrains from throwing — the lookup reaches the
truthy `Object.prototype.toString`, the unknown-type guard does not fire,
and the loop throws a `TypeError` on the first entity. Likewise `""`
(also outside the set) is falsy, defaults to battery, and aggregates one
device instead of none. -/
theorem collectDevices_unknown_type_counterexample :
    collectDevicesJS (some c9Hass) { entity_type := some "toString" } {} =
      CollectOutcome.typeError ∧
    collectDevicesJS (some c9Hass) { entity_type := some "" } {} =
      CollectOutcome.ok (collectDevicesCore c9Hass { entity_type := some "" } {}) ∧
    (collectDevicesCore c9Hass { entity_type := some "" } {}).totalDevices = 1 := by
  refine ⟨by decide, by decide, by decide⟩

/-- C9 (amended): for every snapshot and every config whose `entity_type`
is a non-empty string that is neither one of `{battery, contact, light}`
nor an `Object.prototype` property name, `collectDevices` returns the
all-empty result without throwing; an empty or missing `entity_type` is
falsy and defaults to `battery`; and for an `Object.prototype` property
name the inherited lookup is truthy, so `collectDevices` throws a
`TypeError` on every non-empty snapshot. -/
theorem collectDevicesJS_unknown_type :
    (∀ (hass : Hass) (config : Config) (options : Options) (et : String),
      config.entity_type = some et →
      et ≠ "" → et ≠ "battery" → et ≠ "contact" → et ≠ "light" →
      strMem et objectPrototypeKeys = false →
      collectDevicesJS (some hass) config options = CollectOutcome.ok emptyResult) ∧
    (∀ (hass : Hass) (config : Config) (options : Options) (et : String),
      config.entity_type = some et →
      strMem et objectPrototypeKeys = true →
      hass.states ≠ [] →
      collectDevicesJS (some hass) config options = CollectOutcome.typeError) := by
  constructor
  · intro hass config options et hcfg hne hb hc hl hproto
    have hjs : jsOr config.entity_type "battery" = et := by
      rw [hcfg]; simp [jsOr, hne]
    have hstrat : ENTITY_TYPES et = none := by
      simp [ENTITY_TYPES, hb, hc, hl]
    have hlook : ENTITY_TYPES_lookup (jsOr config.entity_type "battery") =
        JSLookup.undefinedVal := by
      rw [hjs]
      unfold ENTITY_TYPES_lookup
      rw [hstrat]
      simp [hproto]
    simp only [collectDevicesJS, hlook]
  · intro hass config options et hcfg hproto hne
    have hmem := (strMem_iff et objectPrototypeKeys).mp hproto
    have hempty : et ≠ "" := by
      intro he
      rw [he] at hmem
      exact absurd hmem (by decide)
    have hjs : jsOr config.entity_type "battery" = et := by
      rw [hcfg]; simp [jsOr, hempty]
    have hstrat : ENTITY_TYPES et = none := by
      simp only [objectPrototypeKeys, List.mem_cons, List.not_mem_nil, or_false] at hmem
      rcases hmem with rfl | rfl | rfl | rfl | rfl | rfl | rfl | rfl | rfl | rfl | rfl | rfl
        <;> rfl
    have hlook : ENTITY_TYPES_lookup (jsOr config.entity_type "battery") =
        JSLookup.inherited := by
      rw [hjs]
      unfold ENTITY_TYPES_lookup
      rw [hstrat]
      simp [hproto]
    have hnonempty : hass.states.isEmpty = false := by
      cases hs : hass.states with
      | nil => exact absurd hs hne
      | cons a t => rfl
    simp only [collectDevicesJS, hlook, hnonempty, Bool.false_eq_true, if_false]

/-- C9 witness: the amended theorem applied at `entity_type = "climate"`
(an unknown non-prototype key, giving the all-empty result) and at
`entity_type = "valueOf"` (an inherited key on a one-entity snapshot,
giving the TypeError). -/
theorem collectDevicesJS_unknown_type_witness :
    collectDevicesJS (some c9Hass) { entity_type := some "climate" } {} =
      CollectOutcome.ok emptyResult ∧
    collectDevicesJS (some c9Hass) { entity_type := some "valueOf" } {} =
      CollectOutcome.typeError :=
  ⟨collectDevicesJS_unknown_type.1 c9Hass { entity_type := some "climate" } {} "climate"
      rfl (by decide) (by decide) (by decide) (by decide) (by decide),
    collectDevicesJS_unknown_type.2 c9Hass { entity_type := some "valueOf" } {} "valueOf"
      rfl (by decide) (by decide)⟩

/-! ## C8: run decomposition of a grouped list -/

/-- Decompose a grouped list into its leading device run and the
(header, following run) pairs — the contiguous runs between headers. -/
def toRuns : List GroupedItem → List DeviceRecord × List (String × List DeviceRecord)
  | [] => ([], [])
  | GroupedItem.device d :: rest => (d :: (toRuns rest).1, (toRuns rest).2)
  | GroupedItem.header g :: rest => ([], (g, (toRuns rest).1) :: (toRuns rest).2)

/-- The behaviour the spec describes for `_sortDevices`: sort each
contiguous run between headers independently with the same comparator,
leaving every header in its original relative position. -/
def sortDevicesSpec (sortBy : String) (useEntityName : Bool)
    (items : List GroupedItem) : List GroupedItem :=
  (_applySorting sortBy useEntityName (toRuns items).1).map GroupedItem.device ++
    (toRuns items).2.flatMap fun q =>
      GroupedItem.header q.1 ::
        (_applySorting sortBy useEntityName q.2).map GroupedItem.device

theorem sortRuns_eq (sortBy : String) (u : Bool) (items : List GroupedItem) :
    ∀ cur : List DeviceRecord,
      sortRuns sortBy u items cur =
        (_applySorting sortBy u (cur ++ (toRuns items).1)).map GroupedItem.device ++
          (toRuns items).2.flatMap fun q =>
            GroupedItem.header q.1 ::
              (_applySorting sortBy u q.2).map GroupedItem.device := by
  induction items with
  | nil => intro cur; simp [sortRuns, toRuns]
  | cons it rest ih =>
    intro cur
    cases it with
    | device d =>
      have hrec := ih (cur ++ [d])
      simp only [sortRuns, toRuns]
      rw [hrec, List.append_assoc]
      simp
    | header g =>
      simp only [sortRuns, toRuns]
      rw [ih []]
      simp

theorem toRuns_no_header (items : List GroupedItem)
    (h : items.any isGroupHeader = false) :
    toRuns items = (items.filterMap getDeviceRecord, []) := by
  induction items with
  | nil => rfl
  | cons it rest ih =>
    cases it with
    | device d =>
      simp only [List.any_cons, isGroupHeader, Bool.false_or] at h
      simp [toRuns, List.filterMap_cons, getDeviceRecord, ih h]
    | header g => simp [List.any_cons, isGroupHeader] at h

/-- A device record named `Zed` (entity and device name alike). -/
def zedRecord : DeviceRecord :=
  { deviceId := "z", deviceName := "Zed", entityName := "Zed", entityId := "light.z"
    stateInfo := { value := JSValue.str "on", displayValue := "On", isAlert := true
                   numericValue := none }
    lastChanged := "", attributes := {} }

/-- A device record named `Ann`. -/
def annRecord : DeviceRecord :=
  { deviceId := "a", deviceName := "Ann", entityName := "Ann", entityId := "light.a"
    stateInfo := { value := JSValue.str "on", displayValue := "On", isAlert := true
                   numericValue := none }
    lastChanged := "", attributes := {} }

/-- A configuration sorting by name. -/
def nameSortConfig : Config := { entity_type := some "light", sort_by := some "name" }

/-- C8: `_sortDevices` sorts a flat list once and a header-bearing list
run-by-run: it always equals the spec-side decomposition that applies
`_applySorting` (the same comparator) to every contiguous run between
headers and keeps every header in place — so within any group the order
equals the ungrouped sort order; e.g. a group `[Zed, Ann]` under
`sort_by = name` becomes `[Ann, Zed]` with the header unmoved. -/
theorem _sortDevices_eq_spec :
    (∀ (config : Config) (items : List GroupedItem),
      _sortDevices config items =
        sortDevicesSpec (jsOr config.sort_by "state")
          (decide (config.name_source = some "entity")) items) ∧
    _sortDevices nameSortConfig
        [GroupedItem.header "G", GroupedItem.device zedRecord,
          GroupedItem.device annRecord] =
      [GroupedItem.header "G", GroupedItem.device annRecord,
        GroupedItem.device zedRecord] := by
  refine ⟨?_, by decide⟩
  intro config items
  cases hB : items.any isGroupHeader with
  | true =>
    simp only [_sortDevices, hB, if_true]
    rw [sortRuns_eq]
    simp [sortDevicesSpec]
  | false =>
    simp only [_sortDevices, hB, Bool.false_eq_true, if_false]
    simp [sortDevicesSpec, toRuns_no_header items hB]

/-! ## C7: bucket semantics of _groupDevices -/

theorem addToGroup_lookup (m : List (String × List DeviceRecord)) (k : String)
    (d : DeviceRecord) (k2 : String) :
    alookup (addToGroup m k d) k2 =
      if k2 = k then some ((alookup m k).getD [] ++ [d]) else alookup m k2 := by
  induction m with
  | nil =>
    by_cases h : k2 = k
    · subst h; simp [addToGroup, alookup]
    · have hne : ¬ k = k2 := fun hh => h hh.symm
      simp [addToGroup, alookup, h, hne]
  | cons p rest ih =>
    obtain ⟨k1, ds⟩ := p
    by_cases h1 : k1 = k
    · subst h1
      by_cases h2 : k2 = k1
      · subst h2; simp [addToGroup, alookup]
      · have hne : ¬ k1 = k2 := fun hh => h2 hh.symm
        simp [addToGroup, alookup, h2, hne]
    · by_cases h2 : k2 = k
      · subst h2
        have hne : ¬ k1 = k2 := fun hh => h1 hh
        simp [addToGroup, alookup, h1, hne, ih]
      · by_cases h3 : k1 = k2
        · subst h3; simp [addToGroup, alookup, h1, h2, ih]
        · simp [addToGroup, alookup, h1, h2, h3, ih]

theorem addToGroup_keys (m : List (String × List DeviceRecord)) (k : String)
    (d : DeviceRecord) :
    (addToGroup m k d).map Prod.fst =
      if k ∈ m.map Prod.fst then m.map Prod.fst else m.map Prod.fst ++ [k] := by
  induction m with
  | nil => simp [addToGroup]
  | cons p rest ih =>
    obtain ⟨k1, ds⟩ := p
    by_cases h : k1 = k
    · subst h; simp [addToGroup]
    · have hne : ¬ k = k1 := fun hh => h hh.symm
      simp only [addToGroup, if_neg h, List.map_cons, List.mem_cons, ih]
      by_cases hmem : k ∈ rest.map Prod.fst
      · simp [hmem, hne]
      · simp [hmem, hne]

theorem addToGroup_keys_mem (m : List (String × List DeviceRecord)) (k : String)
    (d : DeviceRecord) (k2 : String) :
    k2 ∈ (addToGroup m k d).map Prod.fst ↔ k2 ∈ m.map Prod.fst ∨ k2 = k := by
  rw [addToGroup_keys]
  by_cases h : k ∈ m.map Prod.fst
  · rw [if_pos h]
    constructor
    · exact Or.inl
    · rintro (h1 | rfl)
      · exact h1
      · exact h
  · rw [if_neg h]
    simp

theorem groupFold_keys_mem (keyOf : DeviceRecord → String) (devices : List DeviceRecord) :
    ∀ (m : List (String × List DeviceRecord)) (k : String),
      k ∈ (devices.foldl (fun m d => addToGroup m (keyOf d) d) m).map Prod.fst ↔
        k ∈ m.map Prod.fst ∨ k ∈ devices.map keyOf := by
  induction devices with
  | nil => intro m k; simp
  | cons d rest ih =>
    intro m k
    simp only [List.foldl_cons]
    rw [ih, addToGroup_keys_mem, List.map_cons, List.mem_cons]
    tauto

theorem groupFold_keys_nodup (keyOf : DeviceRecord → String)
    (devices : List DeviceRecord) :
    ∀ m : List (String × List DeviceRecord), (m.map Prod.fst).Nodup →
      ((devices.foldl (fun m d => addToGroup m (keyOf d) d) m).map Prod.fst).Nodup := by
  induction devices with
  | nil => intro m h; exact h
  | cons d rest ih =>
    intro m h
    simp only [List.foldl_cons]
    apply ih
    rw [addToGroup_keys]
    by_cases hmem : keyOf d ∈ m.map Prod.fst
    · rwa [if_pos hmem]
    · rw [if_neg hmem, List.nodup_append]
      refine ⟨h, by simp, ?_⟩
      intro a ha hb
      simp only [List.mem_singleton] at hb
      subst hb
      exact hmem ha

theorem groupFold_lookup (keyOf : DeviceRecord → String) (devices : List DeviceRecord) :
    ∀ (m : List (String × List DeviceRecord)) (k : String),
      alookup (devices.foldl (fun m d => addToGroup m (keyOf d) d) m) k =
        if k ∈ devices.map keyOf
        then some ((alookup m k).getD [] ++ devices.filter fun d => decide (keyOf d = k))
        else alookup m k := by
  induction devices with
  | nil => intro m k; simp
  | cons d rest ih =>
    intro m k
    simp only [List.foldl_cons]
    rw [ih, addToGroup_lookup]
    by_cases hk : k = keyOf d
    · simp only [if_pos hk]
      have hhead : k ∈ (d :: rest).map keyOf := by
        simp [List.mem_cons, hk]
      rw [if_pos hhead]
      have hfilter : (d :: rest).filter (fun x => decide (keyOf x = k)) =
          d :: rest.filter fun x => decide (keyOf x = k) := by
        simp [List.filter_cons, hk.symm]
      rw [hfilter]
      by_cases hrest : k ∈ rest.map keyOf
      · rw [if_pos hrest]
        simp [hk]
      · rw [if_neg hrest]
        have hnil : rest.filter (fun x => decide (keyOf x = k)) = [] := by
          rw [List.filter_eq_nil_iff]
          intro a ha
          simp only [decide_eq_true_eq]
          intro haeq
          exact hrest (haeq ▸ List.mem_map_of_mem keyOf ha)
        have hnil2 : rest.filter (fun x => decide (keyOf x = keyOf d)) = [] := hk ▸ hnil
        simp [hk, hnil2]
    · simp only [if_neg hk]
      have hne2 : ¬ keyOf d = k := fun hh => hk hh.symm
      have hmemiff : k ∈ (d :: rest).map keyOf ↔ k ∈ rest.map keyOf := by
        simp [List.mem_cons, hk]
      have hfilter : (d :: rest).filter (fun x => decide (keyOf x = k)) =
          rest.filter fun x => decide (keyOf x = k) := by
        simp [List.filter_cons, hne2]
      rw [hfilter]
      by_cases hrest : k ∈ rest.map keyOf
      · rw [if_pos hrest, if_pos (hmemiff.mpr hrest)]
      · rw [if_neg hrest, if_neg (fun hh => hrest (hmemiff.mp hh))]

theorem sortStrings_eq_of_perm {l1 l2 : List String} (h : l1.Perm l2) :
    sortStrings l1 = sortStrings l2 :=
  List.eq_of_perm_of_sorted
    (((List.perm_insertionSort strLe l1).trans h).trans
      (List.perm_insertionSort strLe l2).symm)
    (List.sorted_insertionSort strLe l1) (List.sorted_insertionSort strLe l2)

theorem flatMap_congr {α β : Type} (l : List α) (f g : α → List β)
    (h : ∀ a ∈ l, f a = g a) : l.flatMap f = l.flatMap g := by
  induction l with
  | nil => simp
  | cons x xs ih => simp_all

/-- The grouped-list shape the spec describes: one bucket per distinct
group name, emitted in lexicographic order of the name, each bucket one
header followed by exactly its member devices in input order. -/
def groupDevicesSpec (keyOf : DeviceRecord → String) (devices : List DeviceRecord) :
    List GroupedItem :=
  (sortStrings ((devices.map keyOf).dedup)).flatMap fun groupName =>
    GroupedItem.header groupName ::
      (devices.filter fun d => decide (keyOf d = groupName)).map GroupedItem.device

/-- A device record sitting in area `a1` (aggregated with `includeArea`). -/
def floorDeviceRecord : DeviceRecord :=
  { deviceId := "d", deviceName := "D", entityName := "D", entityId := "sensor.d_battery"
    stateInfo := { value := JSValue.num 5, displayValue := "5%", isAlert := true
                   numericValue := some 5 }
    lastChanged := "", attributes := {}, areaId := some "a1", areaName := some "Area" }

/-- A registry in which area `a1` names floor `f1`, but `f1` is absent from
the floor registry. -/
def floorHass : Hass :=
  { states := [], areas := [("a1", { name := some "Area", floor_id := some "f1" })]
    floors := [] }

/-- A configuration grouping by floor. -/
def floorGroupConfig : Config := { entity_type := some "battery", group_by := some "floor" }

/-- C7 counterexample: grouping by floor a device whose area resolves to a
floor id that `getFloorName` cannot resolve does not fall back to
`"No Floor"` — the JavaScript `null` group key is coerced to the object key
`"null"`, so the emitted header is named `"null"`. -/
theorem _groupDevices_floor_counterexample :
    _groupDevices floorHass floorGroupConfig [floorDeviceRecord] =
      [GroupedItem.header "null", GroupedItem.device floorDeviceRecord] ∧
    ("null" : String) ≠ "No Floor" := by
  constructor
  · decide
  · decide

/-- A record whose area name is `Kitchen`. -/
def kitchenRecord : DeviceRecord :=
  { deviceId := "ka", deviceName := "A", entityName := "A", entityId := "light.a"
    stateInfo := { value := JSValue.str "on", displayValue := "On", isAlert := true
                   numericValue := none }
    lastChanged := "", attributes := {}, areaId := some "k", areaName := some "Kitchen" }

/-- A record with no area. -/
def noAreaRecord : DeviceRecord :=
  { deviceId := "nb", deviceName := "B", entityName := "B", entityId := "light.b"
    stateInfo := { value := JSValue.str "on", displayValue := "On", isAlert := true
                   numericValue := none }
    lastChanged := "", attributes := {} }

/-- A configuration grouping by area. -/
def areaGroupConfig : Config := { entity_type := some "light", group_by := some "area" }

/-- C7 (amended): for `group_by` in `{area, floor}`, `_groupDevices` equals
the spec-side bucketing `groupDevicesSpec` for the per-device key
`groupKeyOf`: buckets in lexicographic key order, each preceded by exactly
one header and followed by exactly its members in input order — where the
key is `areaName ?? "No Area"` for area, and for floor the
`areaId → floorId → floorName` chain defaulting to `"No Floor"` when the
area or floor id is missing but to the coerced key `"null"` when the floor
name lookup fails; e.g. devices `{A: Kitchen, B: null}` group as
`[Kitchen, No Area]` in that order. -/
theorem _groupDevices_spec :
    (∀ (hass : Hass) (config : Config) (devices : List DeviceRecord) (groupBy : String),
      strTruthy config.group_by = some groupBy →
      (groupBy = "area" ∨ groupBy = "floor") →
      _groupDevices hass config devices =
        groupDevicesSpec (groupKeyOf hass groupBy) devices) ∧
    _groupDevices emptyHass areaGroupConfig [kitchenRecord, noAreaRecord] =
      [GroupedItem.header "Kitchen", GroupedItem.device kitchenRecord,
        GroupedItem.header "No Area", GroupedItem.device noAreaRecord] := by
  refine ⟨?_, by decide⟩
  intro hass config devices groupBy hg hgb
  have hnone : ¬ groupBy = "none" := by
    rcases hgb with h | h <;> subst h <;> decide
  unfold _groupDevices
  rw [hg]
  simp only []
  rw [if_neg hnone]
  have hperm :
      ((devices.foldl (fun m d => addToGroup m (groupKeyOf hass groupBy d) d) []).map
        Prod.fst).Perm ((devices.map (groupKeyOf hass groupBy)).dedup) := by
    rw [List.perm_ext_iff_of_nodup
      (groupFold_keys_nodup (groupKeyOf hass groupBy) devices [] (by simp))
      (devices.map (groupKeyOf hass groupBy)).nodup_dedup]
    intro a
    rw [groupFold_keys_mem, List.mem_dedup]
    simp
  rw [sortStrings_eq_of_perm hperm]
  unfold groupDevicesSpec
  apply flatMap_congr
  intro g hgmem
  have hmem : g ∈ devices.map (groupKeyOf hass groupBy) := by
    have hdd := (List.perm_insertionSort strLe
      ((devices.map (groupKeyOf hass groupBy)).dedup)).mem_iff.mp hgmem
    rwa [List.mem_dedup] at hdd
  have hlook := groupFold_lookup (groupKeyOf hass groupBy) devices [] g
  rw [if_pos hmem] at hlook
  simp only [alookup, Option.getD_none, List.nil_append] at hlook
  rw [hlook]
  simp

/-- C7 witness: the amended grouping theorem applied to the concrete
area-mode Kitchen/No-Area device list. -/
theorem _groupDevices_spec_witness :
    _groupDevices emptyHass areaGroupConfig [kitchenRecord, noAreaRecord] =
      groupDevicesSpec (groupKeyOf emptyHass "area") [kitchenRecord, noAreaRecord] :=
  _groupDevices_spec.1 emptyHass areaGroupConfig [kitchenRecord, noAreaRecord] "area"
    (by decide) (Or.inl rfl)
